import Mathlib

/-!
Shallow embedding of the movement/collision core of a 2D platformer
(`src/game/movement.rs` together with the constants it imports from
`src/game/spawn/level.rs` and `src/game/spawn/player.rs`).

Arithmetic is modelled exactly over `ℚ`; the source's `f32` epsilon
(`f32::EPSILON = 2⁻²³`) becomes the rational constant `EPSILON`.
-/

namespace Movement

/-- Gravity in pixels/sec^2 (`GRAVITY` in movement.rs). -/
def GRAVITY : ℚ := 2300

/-- Tolerance used for all touching tests (`f32::EPSILON = 2⁻²³`). -/
def EPSILON : ℚ := 1 / 8388608

/-- Width of a level in pixels (`LEVEL_WIDTH` in level.rs). -/
def LEVEL_WIDTH : ℚ := 1280

/-- Size of the scaled player image (`PLAYER_IMAGE_SIZE = 24.0 * 3.0`). -/
def PLAYER_IMAGE_SIZE : ℚ := 72

/-- A two-dimensional vector (Bevy's `Vec2`, and the x/y part of a
`Transform`'s translation). -/
structure Vec2 where
  x : ℚ
  y : ℚ
deriving DecidableEq

/-- The `Player` component: collider size and collider offset. -/
structure Player where
  collider : Vec2
  collider_offset : Vec2
deriving DecidableEq

/-- The `RectCollider` component: full bounds and local offset. -/
structure RectCollider where
  bounds : Vec2
  offset : Vec2
deriving DecidableEq

/-- An obstacle as seen by the movement systems: the pair of a
`Transform` (its translation) and a `RectCollider`. -/
structure Obstacle where
  translation : Vec2
  collider : RectCollider
deriving DecidableEq

/-- The `MovementController` component. -/
structure MovementController where
  speed : ℚ
  jumping : Bool
  vertical_velocity : ℚ
deriving DecidableEq

/-- Left edge of the player's collider (`player_left_edge`). -/
def playerLeftEdge (p : Player) (tr : Vec2) : ℚ :=
  tr.x + p.collider_offset.x - p.collider.x / 2

/-- Right edge of the player's collider (`player_right_edge`). -/
def playerRightEdge (p : Player) (tr : Vec2) : ℚ :=
  tr.x + p.collider_offset.x + p.collider.x / 2

/-- Top edge of the player's collider (`player_top`). -/
def playerTop (p : Player) (tr : Vec2) : ℚ :=
  tr.y + p.collider_offset.y + p.collider.y / 2

/-- Bottom edge of the player's collider (`player_bottom`). -/
def playerBottom (p : Player) (tr : Vec2) : ℚ :=
  tr.y + p.collider_offset.y - p.collider.y / 2

/-- Left edge of an obstacle (`obstacle_left_edge`). -/
def obstacleLeftEdge (o : Obstacle) : ℚ :=
  o.translation.x + o.collider.offset.x - o.collider.bounds.x / 2

/-- Right edge of an obstacle (`obstacle_right_edge`). -/
def obstacleRightEdge (o : Obstacle) : ℚ :=
  o.translation.x + o.collider.offset.x + o.collider.bounds.x / 2

/-- Top edge of an obstacle (`obstacle_top`). -/
def obstacleTop (o : Obstacle) : ℚ :=
  o.translation.y + o.collider.offset.y + o.collider.bounds.y / 2

/-- Bottom edge of an obstacle (`obstacle_bottom`). -/
def obstacleBottom (o : Obstacle) : ℚ :=
  o.translation.y + o.collider.offset.y - o.collider.bounds.y / 2

/-- Loop body of the wall scan in `apply_movement`: one obstacle is
tested for vertical overlap with the player and for lying to the right
of the player's right edge; the candidate with the strictly smaller
distance wins, the first found is kept on ties. -/
def wallScanStep (pBottom pTop pRight : ℚ) (acc : Option ℚ) (o : Obstacle) : Option ℚ :=
  if ¬(pBottom > obstacleTop o ∨ pTop < obstacleBottom o) ∧ pRight ≤ obstacleLeftEdge o then
    match acc with
    | some other =>
        if obstacleLeftEdge o - pRight < other - pRight then some (obstacleLeftEdge o)
        else some other
    | none => some (obstacleLeftEdge o)
  else acc

/-- The wall scan of `apply_movement` (`left_of_closest_wall`): the left
edge of the closest obstacle the player could run into moving right. -/
def left_of_closest_wall (pBottom pTop pRight : ℚ) (obs : List Obstacle) : Option ℚ :=
  obs.foldl (wallScanStep pBottom pTop pRight) none

/-- Loop body of the floor scan (the `vertical_velocity <= 0` side of the
second loop in `apply_movement`): horizontal overlap and an obstacle top
at or below the player's bottom qualify an obstacle as a floor. -/
def floorScanStep (pLeft pRight pBottom : ℚ) (acc : Option ℚ) (o : Obstacle) : Option ℚ :=
  if ¬(pLeft > obstacleRightEdge o ∨ pRight < obstacleLeftEdge o) ∧
      obstacleTop o ≤ pBottom then
    match acc with
    | some other =>
        if pBottom - obstacleTop o < pBottom - other then some (obstacleTop o)
        else some other
    | none => some (obstacleTop o)
  else acc

/-- Loop body of the ceiling scan (the `vertical_velocity > 0` side of
the second loop in `apply_movement`). -/
def ceilingScanStep (pLeft pRight pTop : ℚ) (acc : Option ℚ) (o : Obstacle) : Option ℚ :=
  if ¬(pLeft > obstacleRightEdge o ∨ pRight < obstacleLeftEdge o) ∧
      obstacleBottom o ≥ pTop then
    match acc with
    | some other =>
        if obstacleBottom o - pTop < other - pTop then some (obstacleBottom o)
        else some other
    | none => some (obstacleBottom o)
  else acc

/-- The floor/ceiling scan of `apply_movement`
(`closest_floor_or_ceiling`). The source branches on the sign of
`vertical_velocity` inside its single loop; since the velocity does not
change during the loop this is the same as choosing one of two folds
up front. -/
def closest_floor_or_ceiling (vv pLeft pRight pBottom pTop : ℚ)
    (obs : List Obstacle) : Option ℚ :=
  if vv ≤ 0 then obs.foldl (floorScanStep pLeft pRight pBottom) none
  else obs.foldl (ceilingScanStep pLeft pRight pTop) none

/-- The horizontal move of `apply_movement` (the `// move rightwards`
block): the proposed x is clamped against the closest wall unless the
player is already within `EPSILON` of it, in which case x is unchanged. -/
def horizontalResolve (dt : ℚ) (player : Player) (ctl : MovementController)
    (tr : Vec2) (obs : List Obstacle) : ℚ :=
  match left_of_closest_wall (playerBottom player tr) (playerTop player tr)
      (playerRightEdge player tr) obs with
  | some l =>
      if l - playerRightEdge player tr > EPSILON then
        min (tr.x + ctl.speed * dt)
          (l - player.collider_offset.x - player.collider.x / 2)
      else tr.x
  | none => tr.x + ctl.speed * dt

/-- Result of one run of the `apply_movement` system for the single
player: the new controller, the new translation and the new value of the
`TotalDistance` resource. -/
structure TickOut where
  controller : MovementController
  translation : Vec2
  totalDistance : ℚ
deriving DecidableEq

/-- Body of the `apply_movement` system, reached when the pause gate is
open. The player's four edges are computed once, from the translation the
player has when the tick starts; the vertical pass reuses those same
edges. The vertical branch mirrors the source: on the falling side a
touching floor (distance at most `EPSILON`) leaves controller and y
untouched, a clamp that engages zeroes the velocity and clears `jumping`,
and otherwise gravity is integrated with `jumping` set; on the rising
side `jumping` is set in every branch; with no candidate at all the
player moves freely and gravity is integrated with `jumping` left as it
was. -/
def apply_movement_body (dt : ℚ) (player : Player)
    (ctl : MovementController) (tr : Vec2) (obs : List Obstacle)
    (totalDistance : ℚ) : TickOut :=
  let pLeft := playerLeftEdge player tr
  let pRight := playerRightEdge player tr
  let pTop := playerTop player tr
  let pBottom := playerBottom player tr
  let newX := horizontalResolve dt player ctl tr obs
  let newTotal := totalDistance + (newX - tr.x)
  match closest_floor_or_ceiling ctl.vertical_velocity pLeft pRight pBottom pTop obs with
  | some c =>
      if ctl.vertical_velocity ≤ 0 then
        if pBottom - c > EPSILON then
          let minY := c - player.collider_offset.y + player.collider.y / 2
          let newY := max (tr.y + ctl.vertical_velocity * dt) minY
          if |newY - minY| > EPSILON then
            ⟨⟨ctl.speed, true, ctl.vertical_velocity - GRAVITY * dt⟩, ⟨newX, newY⟩, newTotal⟩
          else
            ⟨⟨ctl.speed, false, 0⟩, ⟨newX, newY⟩, newTotal⟩
        else
          ⟨ctl, ⟨newX, tr.y⟩, newTotal⟩
      else
        if c - pTop > EPSILON then
          let maxY := c - player.collider_offset.y - player.collider.y / 2
          let newY := min (tr.y + ctl.vertical_velocity * dt) maxY
          if |maxY - newY| > EPSILON then
            ⟨⟨ctl.speed, true, ctl.vertical_velocity - GRAVITY * dt⟩, ⟨newX, newY⟩, newTotal⟩
          else
            ⟨⟨ctl.speed, true, 0⟩, ⟨newX, newY⟩, newTotal⟩
        else
          ⟨⟨ctl.speed, true, ctl.vertical_velocity - GRAVITY * dt⟩, ⟨newX, tr.y⟩, newTotal⟩
  | none =>
      ⟨⟨ctl.speed, ctl.jumping, ctl.vertical_velocity - GRAVITY * dt⟩,
        ⟨newX, tr.y + ctl.vertical_velocity * dt⟩, newTotal⟩

/-- One run of the `apply_movement` system: the system returns
immediately while paused, otherwise it runs `apply_movement_body`. -/
def apply_movement (dt : ℚ) (paused : Bool) (player : Player)
    (ctl : MovementController) (tr : Vec2) (obs : List Obstacle)
    (totalDistance : ℚ) : TickOut :=
  if paused then ⟨ctl, tr, totalDistance⟩
  else apply_movement_body dt player ctl tr obs totalDistance

/-- Variant of `apply_movement` written to the spec's words for the
refinement comparison of the vertical pass: here the floor/ceiling scan
uses the horizontal edges the player has *after* the horizontal move
("post-horizontal-pass edges"), instead of the edges from the start of
the tick. Everything else is identical to `apply_movement`. -/
def apply_movement_post_edges (dt : ℚ) (paused : Bool) (player : Player)
    (ctl : MovementController) (tr : Vec2) (obs : List Obstacle)
    (totalDistance : ℚ) : TickOut :=
  if paused then ⟨ctl, tr, totalDistance⟩ else
  let pTop := playerTop player tr
  let pBottom := playerBottom player tr
  let newX := horizontalResolve dt player ctl tr obs
  let newTotal := totalDistance + (newX - tr.x)
  let pLeft2 := playerLeftEdge player ⟨newX, tr.y⟩
  let pRight2 := playerRightEdge player ⟨newX, tr.y⟩
  match closest_floor_or_ceiling ctl.vertical_velocity pLeft2 pRight2 pBottom pTop obs with
  | some c =>
      if ctl.vertical_velocity ≤ 0 then
        if pBottom - c > EPSILON then
          let minY := c - player.collider_offset.y + player.collider.y / 2
          let newY := max (tr.y + ctl.vertical_velocity * dt) minY
          if |newY - minY| > EPSILON then
            ⟨⟨ctl.speed, true, ctl.vertical_velocity - GRAVITY * dt⟩, ⟨newX, newY⟩, newTotal⟩
          else
            ⟨⟨ctl.speed, false, 0⟩, ⟨newX, newY⟩, newTotal⟩
        else
          ⟨ctl, ⟨newX, tr.y⟩, newTotal⟩
      else
        if c - pTop > EPSILON then
          let maxY := c - player.collider_offset.y - player.collider.y / 2
          let newY := min (tr.y + ctl.vertical_velocity * dt) maxY
          if |maxY - newY| > EPSILON then
            ⟨⟨ctl.speed, true, ctl.vertical_velocity - GRAVITY * dt⟩, ⟨newX, newY⟩, newTotal⟩
          else
            ⟨⟨ctl.speed, true, 0⟩, ⟨newX, newY⟩, newTotal⟩
        else
          ⟨⟨ctl.speed, true, ctl.vertical_velocity - GRAVITY * dt⟩, ⟨newX, tr.y⟩, newTotal⟩
  | none =>
      ⟨⟨ctl.speed, ctl.jumping, ctl.vertical_velocity - GRAVITY * dt⟩,
        ⟨newX, tr.y + ctl.vertical_velocity * dt⟩, newTotal⟩

/-- Side-contact condition of `check_spike_collisions`: the spikes' left
edge equals the player's right edge within `EPSILON` and the rectangles
vertically overlap. -/
def sideContact (player : Player) (tr : Vec2) (s : Obstacle) : Prop :=
  |obstacleLeftEdge s - playerRightEdge player tr| ≤ EPSILON ∧
    ¬(playerBottom player tr > obstacleTop s ∨ playerTop player tr < obstacleBottom s)

/-- Top/bottom-contact condition of `check_spike_collisions`: the
player's bottom touches the spikes' top, or the spikes' bottom touches
the player's top, within `EPSILON`, and the rectangles horizontally
overlap. -/
def topBottomContact (player : Player) (tr : Vec2) (s : Obstacle) : Prop :=
  (|playerBottom player tr - obstacleTop s| ≤ EPSILON ∨
      |obstacleBottom s - playerTop player tr| ≤ EPSILON) ∧
    ¬(playerLeftEdge player tr > obstacleRightEdge s ∨
        playerRightEdge player tr < obstacleLeftEdge s)

instance (player : Player) (tr : Vec2) (s : Obstacle) :
    Decidable (sideContact player tr s) := by
  unfold sideContact; infer_instance

instance (player : Player) (tr : Vec2) (s : Obstacle) :
    Decidable (topBottomContact player tr s) := by
  unfold topBottomContact; infer_instance

/-- Number of `DeathEvent` triggers one spikes obstacle produces in one
run of `check_spike_collisions`: one per satisfied contact condition. -/
def spikeEvents (player : Player) (tr : Vec2) (s : Obstacle) : ℕ :=
  (if sideContact player tr s then 1 else 0) +
    (if topBottomContact player tr s then 1 else 0)

/-- One run of the `check_spike_collisions` system, returning the number
of `DeathEvent` triggers it fires. The system returns early (firing
nothing) when paused or dead. -/
def check_spike_collisions (paused dead : Bool) (player : Player) (tr : Vec2)
    (spikes : List Obstacle) : ℕ :=
  if paused || dead then 0
  else (spikes.map (spikeEvents player tr)).sum

/-- One run of the `wrap_within_level` system: when the player's left
image edge has passed the level's right edge, the player is moved to
just left of the level and the next level's obstacles are spawned.
Returns the new translation, the new current level, and whether the
advance-level spawn was triggered. This system has no pause gate. -/
def wrap_within_level (tr : Vec2) (currentLevel : ℕ) : Vec2 × ℕ × Bool :=
  if tr.x - PLAYER_IMAGE_SIZE / 2 > LEVEL_WIDTH / 2 then
    (⟨-LEVEL_WIDTH / 2 - PLAYER_IMAGE_SIZE / 2, tr.y⟩, currentLevel + 1, true)
  else (tr, currentLevel, false)

/-- Result of one whole simulation tick: the chained systems
`apply_movement`, `check_spike_collisions`, `wrap_within_level`. -/
structure SimOut where
  controller : MovementController
  translation : Vec2
  totalDistance : ℚ
  deaths : ℕ
  level : ℕ
  advanced : Bool
deriving DecidableEq

/-- One simulation tick: `apply_movement`, then `check_spike_collisions`
on the resulting position, then `wrap_within_level`, in the source's
chained system order. -/
def simTick (dt : ℚ) (paused dead : Bool) (player : Player)
    (ctl : MovementController) (tr : Vec2) (obs spikes : List Obstacle)
    (totalDistance : ℚ) (level : ℕ) : SimOut :=
  let m := apply_movement dt paused player ctl tr obs totalDistance
  let deaths := check_spike_collisions paused dead player m.translation spikes
  let w := wrap_within_level m.translation level
  ⟨m.controller, w.1, m.totalDistance, deaths, w.2.1, w.2.2⟩

/-- Kinematic state of the player carried across ticks. -/
structure PState where
  ctl : MovementController
  tr : Vec2
deriving DecidableEq

/-- One resolver tick (unpaused `apply_movement`) on a kinematic state. -/
def stepTick (player : Player) (obs : List Obstacle) (dt : ℚ) (s : PState) : PState :=
  let out := apply_movement dt false player s.ctl s.tr obs 0
  ⟨out.controller, out.translation⟩

/-- A sequence of resolver ticks with per-tick durations `dts`. -/
def runTicks (player : Player) (obs : List Obstacle) (s : PState)
    (dts : List ℚ) : PState :=
  dts.foldl (fun s dt => stepTick player obs dt s) s

/-- Vertical overlap between the player and an obstacle, as the wall
scan tests it. -/
def vertOverlap (player : Player) (tr : Vec2) (o : Obstacle) : Prop :=
  ¬(playerBottom player tr > obstacleTop o ∨ playerTop player tr < obstacleBottom o)

instance (player : Player) (tr : Vec2) (o : Obstacle) :
    Decidable (vertOverlap player tr o) := by
  unfold vertOverlap; infer_instance

/-- Horizontal overlap between the player and an obstacle, as the
floor/ceiling scan tests it. -/
def horizOverlap (player : Player) (tr : Vec2) (o : Obstacle) : Prop :=
  ¬(playerLeftEdge player tr > obstacleRightEdge o ∨
      playerRightEdge player tr < obstacleLeftEdge o)

instance (player : Player) (tr : Vec2) (o : Obstacle) :
    Decidable (horizOverlap player tr o) := by
  unfold horizOverlap; infer_instance

/-- Resting contact with a floor obstacle: the player's bottom edge sits
on the floor's top edge within `EPSILON`, with zero vertical velocity
and the grounded flag. -/
def restingOn (player : Player) (s : PState) (f : Obstacle) : Prop :=
  0 ≤ playerBottom player s.tr - obstacleTop f ∧
    playerBottom player s.tr - obstacleTop f ≤ EPSILON ∧
    s.ctl.vertical_velocity = 0 ∧ s.ctl.jumping = false

/-! Helper lemmas. -/

/-- With the pause gate open, `apply_movement` is its body. -/
lemma apply_movement_false (dt : ℚ) (player : Player)
    (ctl : MovementController) (tr : Vec2) (obs : List Obstacle)
    (totalDistance : ℚ) :
    apply_movement dt false player ctl tr obs totalDistance =
      apply_movement_body dt player ctl tr obs totalDistance := rfl

/-- While paused, `apply_movement` changes nothing. -/
lemma apply_movement_true (dt : ℚ) (player : Player)
    (ctl : MovementController) (tr : Vec2) (obs : List Obstacle)
    (totalDistance : ℚ) :
    apply_movement dt true player ctl tr obs totalDistance =
      ⟨ctl, tr, totalDistance⟩ := rfl

/-- The touching tolerance is positive. -/
lemma EPSILON_pos : 0 < EPSILON := by norm_num [EPSILON]

/-- One wall-scan step preserves the bound that any stored candidate lies
at or right of the player's right edge. -/
lemma wallScanStep_lb (pB pT pR : ℚ) (acc : Option ℚ) (o : Obstacle)
    (h : ∀ b, acc = some b → pR ≤ b) (a : ℚ)
    (ha : wallScanStep pB pT pR acc o = some a) : pR ≤ a := by
  by_cases hc : ¬(pB > obstacleTop o ∨ pT < obstacleBottom o) ∧
      pR ≤ obstacleLeftEdge o
  · cases acc with
    | none =>
      simp only [wallScanStep, if_pos hc, Option.some.injEq] at ha
      rw [← ha]
      exact hc.2
    | some b =>
      simp only [wallScanStep, if_pos hc] at ha
      split at ha
      · rw [Option.some.injEq] at ha
        rw [← ha]
        exact hc.2
      · rw [Option.some.injEq] at ha
        rw [← ha]
        exact h b rfl
  · simp only [wallScanStep, if_neg hc] at ha
    exact h a ha

/-- Whatever the wall scan returns lies at or right of the player's
right edge. -/
lemma wallScan_foldl_lb (pB pT pR : ℚ) :
    ∀ (obs : List Obstacle) (acc : Option ℚ),
      (∀ b, acc = some b → pR ≤ b) →
      ∀ l, obs.foldl (wallScanStep pB pT pR) acc = some l → pR ≤ l := by
  intro obs
  induction obs with
  | nil => intro acc h l hl; exact h l hl
  | cons o rest ih =>
    intro acc h l hl
    rw [List.foldl_cons] at hl
    exact ih _ (fun b hb => wallScanStep_lb pB pT pR acc o h b hb) l hl

/-- The closest-wall result lies at or right of the player's right edge. -/
lemma left_of_closest_wall_lb (pB pT pR : ℚ) (obs : List Obstacle) (l : ℚ)
    (hl : left_of_closest_wall pB pT pR obs = some l) : pR ≤ l :=
  wallScan_foldl_lb pB pT pR obs none (fun b hb => by cases hb) l hl

/-- One wall-scan step started from a stored candidate either keeps it or
replaces it by a candidate at least as close. -/
lemma wallScanStep_some (pB pT pR a : ℚ) (o : Obstacle) :
    wallScanStep pB pT pR (some a) o = some a ∨
      (wallScanStep pB pT pR (some a) o = some (obstacleLeftEdge o) ∧
        obstacleLeftEdge o ≤ a) := by
  by_cases hc : ¬(pB > obstacleTop o ∨ pT < obstacleBottom o) ∧
      pR ≤ obstacleLeftEdge o
  · by_cases hlt : obstacleLeftEdge o - pR < a - pR
    · right
      refine ⟨?_, by linarith⟩
      simp only [wallScanStep, if_pos hc, if_pos hlt]
    · left
      simp only [wallScanStep, if_pos hc, if_neg hlt]
  · left
    simp only [wallScanStep, if_neg hc]

/-- Continuing the wall scan from a stored candidate yields a result at
most that candidate. -/
lemma wallScan_foldl_mono (pB pT pR : ℚ) :
    ∀ (obs : List Obstacle) (a : ℚ),
      ∃ l, obs.foldl (wallScanStep pB pT pR) (some a) = some l ∧ l ≤ a := by
  intro obs
  induction obs with
  | nil => intro a; exact ⟨a, rfl, le_refl a⟩
  | cons o rest ih =>
    intro a
    rw [List.foldl_cons]
    rcases wallScanStep_some pB pT pR a o with h | ⟨h, hle⟩
    · rw [h]; exact ih a
    · rw [h]
      obtain ⟨l, hl, hla⟩ := ih (obstacleLeftEdge o)
      exact ⟨l, hl, hla.trans hle⟩

/-- A qualifying wall in the list forces the scan to return a wall at
most as far right as it. -/
lemma wallScan_foldl_candidate (pB pT pR : ℚ) :
    ∀ (obs : List Obstacle) (acc : Option ℚ) (o : Obstacle), o ∈ obs →
      ¬(pB > obstacleTop o ∨ pT < obstacleBottom o) → pR ≤ obstacleLeftEdge o →
      ∃ l, obs.foldl (wallScanStep pB pT pR) acc = some l ∧ l ≤ obstacleLeftEdge o := by
  intro obs
  induction obs with
  | nil => intro acc o ho _ _; exact absurd ho (List.not_mem_nil o)
  | cons hd rest ih =>
    intro acc o ho hov hr
    rw [List.foldl_cons]
    rcases List.mem_cons.mp ho with rfl | hmem
    · have hstep : ∃ b, wallScanStep pB pT pR acc o = some b ∧
          b ≤ obstacleLeftEdge o := by
        cases acc with
        | none =>
          refine ⟨obstacleLeftEdge o, ?_, le_refl _⟩
          simp only [wallScanStep, if_pos (And.intro hov hr)]
        | some other =>
          by_cases hlt : obstacleLeftEdge o - pR < other - pR
          · refine ⟨obstacleLeftEdge o, ?_, le_refl _⟩
            simp only [wallScanStep, if_pos (And.intro hov hr), if_pos hlt]
          · refine ⟨other, ?_, by linarith⟩
            simp only [wallScanStep, if_pos (And.intro hov hr), if_neg hlt]
      obtain ⟨b, hb, hble⟩ := hstep
      rw [hb]
      obtain ⟨l, hl, hlb⟩ := wallScan_foldl_mono pB pT pR rest b
      exact ⟨l, hl, hlb.trans hble⟩
    · exact ih _ o hmem hov hr

/-- One floor-scan step started from a stored candidate either keeps it
or replaces it by a higher obstacle top. -/
lemma floorScanStep_some (pL pR pB a : ℚ) (o : Obstacle) :
    floorScanStep pL pR pB (some a) o = some a ∨
      (floorScanStep pL pR pB (some a) o = some (obstacleTop o) ∧
        a ≤ obstacleTop o) := by
  by_cases hc : ¬(pL > obstacleRightEdge o ∨ pR < obstacleLeftEdge o) ∧
      obstacleTop o ≤ pB
  · by_cases hlt : pB - obstacleTop o < pB - a
    · right
      refine ⟨?_, by linarith⟩
      simp only [floorScanStep, if_pos hc, if_pos hlt]
    · left
      simp only [floorScanStep, if_pos hc, if_neg hlt]
  · left
    simp only [floorScanStep, if_neg hc]

/-- Continuing the floor scan from a stored candidate yields a result at
least that candidate. -/
lemma floorScan_foldl_mono (pL pR pB : ℚ) :
    ∀ (obs : List Obstacle) (a : ℚ),
      ∃ c, obs.foldl (floorScanStep pL pR pB) (some a) = some c ∧ a ≤ c := by
  intro obs
  induction obs with
  | nil => intro a; exact ⟨a, rfl, le_refl a⟩
  | cons o rest ih =>
    intro a
    rw [List.foldl_cons]
    rcases floorScanStep_some pL pR pB a o with h | ⟨h, hle⟩
    · rw [h]; exact ih a
    · rw [h]
      obtain ⟨c, hc, hca⟩ := ih (obstacleTop o)
      exact ⟨c, hc, hle.trans hca⟩

/-- A qualifying floor in the list forces the scan to return a top edge
at least as high as that floor's. -/
lemma floorScan_foldl_candidate (pL pR pB : ℚ) :
    ∀ (obs : List Obstacle) (acc : Option ℚ) (o : Obstacle), o ∈ obs →
      ¬(pL > obstacleRightEdge o ∨ pR < obstacleLeftEdge o) →
      obstacleTop o ≤ pB →
      ∃ c, obs.foldl (floorScanStep pL pR pB) acc = some c ∧
        obstacleTop o ≤ c := by
  intro obs
  induction obs with
  | nil => intro acc o ho _ _; exact absurd ho (List.not_mem_nil o)
  | cons hd rest ih =>
    intro acc o ho hov ht
    rw [List.foldl_cons]
    rcases List.mem_cons.mp ho with rfl | hmem
    · have hstep : ∃ b, floorScanStep pL pR pB acc o = some b ∧
          obstacleTop o ≤ b := by
        cases acc with
        | none =>
          refine ⟨obstacleTop o, ?_, le_refl _⟩
          simp only [floorScanStep, if_pos (And.intro hov ht)]
        | some other =>
          by_cases hlt : pB - obstacleTop o < pB - other
          · refine ⟨obstacleTop o, ?_, le_refl _⟩
            simp only [floorScanStep, if_pos (And.intro hov ht), if_pos hlt]
          · refine ⟨other, ?_, by linarith⟩
            simp only [floorScanStep, if_pos (And.intro hov ht), if_neg hlt]
      obtain ⟨b, hb, hble⟩ := hstep
      rw [hb]
      obtain ⟨c, hc, hcb⟩ := floorScan_foldl_mono pL pR pB rest b
      exact ⟨c, hc, hble.trans hcb⟩
    · exact ih _ o hmem hov ht

/-- The x position `apply_movement_body` produces is the horizontal
resolution; the vertical pass never changes x. -/
lemma apply_movement_body_x (dt : ℚ) (player : Player)
    (ctl : MovementController) (tr : Vec2) (obs : List Obstacle) (td : ℚ) :
    (apply_movement_body dt player ctl tr obs td).translation.x =
      horizontalResolve dt player ctl tr obs := by
  simp only [apply_movement_body]
  cases hfc : closest_floor_or_ceiling ctl.vertical_velocity (playerLeftEdge player tr)
      (playerRightEdge player tr) (playerBottom player tr) (playerTop player tr) obs with
  | none => simp [hfc]
  | some c =>
    simp only [hfc]
    split_ifs <;> simp

/-- The controller speed is never changed by `apply_movement_body`. -/
lemma apply_movement_body_speed (dt : ℚ) (player : Player)
    (ctl : MovementController) (tr : Vec2) (obs : List Obstacle) (td : ℚ) :
    (apply_movement_body dt player ctl tr obs td).controller.speed = ctl.speed := by
  simp only [apply_movement_body]
  cases hfc : closest_floor_or_ceiling ctl.vertical_velocity (playerLeftEdge player tr)
      (playerRightEdge player tr) (playerBottom player tr) (playerTop player tr) obs with
  | none => simp [hfc]
  | some c =>
    simp only [hfc]
    split_ifs <;> simp

/-! Claim C1. -/

/-- C1 counterexample: with no obstacles at all, a grounded actor
(`jumping = false`, `vertical_velocity = 0`) ends one resolver tick with
`dt = 1/60` still not airborne but with nonzero vertical velocity: the
no-candidate branch integrates gravity without touching the airborne
flag, so the claimed postcondition fails there. -/
theorem C1_counterexample :
    (apply_movement (1/60) false ⟨⟨10, 10⟩, ⟨0, 0⟩⟩ ⟨0, false, 0⟩ ⟨0, 0⟩ [] 0).controller.jumping
        = false ∧
      (apply_movement (1/60) false ⟨⟨10, 10⟩, ⟨0, 0⟩⟩ ⟨0, false, 0⟩ ⟨0, 0⟩ [] 0).controller.vertical_velocity
        ≠ 0 := by
  norm_num [apply_movement, apply_movement_body, horizontalResolve,
    left_of_closest_wall, closest_floor_or_ceiling, wallScanStep, floorScanStep,
    ceilingScanStep, playerLeftEdge, playerRightEdge, playerTop, playerBottom,
    obstacleLeftEdge, obstacleRightEdge, obstacleTop, obstacleBottom, EPSILON, GRAVITY]

/-- C1 (amended): after one unpaused resolver tick, `airborne = false`
implies `vertical_velocity = 0`, provided the vertical pass finds a
floor/ceiling candidate and the incoming state already satisfies the
invariant; the branch with no candidate found violates it
(`C1_counterexample`). -/
theorem C1_grounded_implies_zero_velocity
    (dt : ℚ) (player : Player) (ctl : MovementController) (tr : Vec2)
    (obs : List Obstacle) (td : ℚ) (c : ℚ)
    (hc : closest_floor_or_ceiling ctl.vertical_velocity (playerLeftEdge player tr)
      (playerRightEdge player tr) (playerBottom player tr) (playerTop player tr) obs = some c)
    (hinv : ctl.jumping = false → ctl.vertical_velocity = 0) :
    (apply_movement dt false player ctl tr obs td).controller.jumping = false →
      (apply_movement dt false player ctl tr obs td).controller.vertical_velocity = 0 := by
  simp only [apply_movement_false, apply_movement_body, hc]
  split_ifs with h1 h2 h3 h4 h5
  · intro hj
    simp at hj
  · intro _
    rfl
  · intro hj
    exact hinv hj
  · intro hj
    simp at hj
  · intro hj
    simp at hj
  · intro hj
    simp at hj

/-- C1 witness: a grounded actor resting on a floor keeps the invariant
through a tick. -/
theorem C1_witness :
    (closest_floor_or_ceiling (0 : ℚ)
        (playerLeftEdge ⟨⟨10, 10⟩, ⟨0, 0⟩⟩ ⟨0, 105⟩)
        (playerRightEdge ⟨⟨10, 10⟩, ⟨0, 0⟩⟩ ⟨0, 105⟩)
        (playerBottom ⟨⟨10, 10⟩, ⟨0, 0⟩⟩ ⟨0, 105⟩)
        (playerTop ⟨⟨10, 10⟩, ⟨0, 0⟩⟩ ⟨0, 105⟩)
        [⟨⟨0, 95⟩, ⟨⟨100, 10⟩, ⟨0, 0⟩⟩⟩] = some 100) ∧
      ((apply_movement (1/60) false ⟨⟨10, 10⟩, ⟨0, 0⟩⟩ ⟨0, false, 0⟩ ⟨0, 105⟩
          [⟨⟨0, 95⟩, ⟨⟨100, 10⟩, ⟨0, 0⟩⟩⟩] 0).controller.jumping = false →
        (apply_movement (1/60) false ⟨⟨10, 10⟩, ⟨0, 0⟩⟩ ⟨0, false, 0⟩ ⟨0, 105⟩
          [⟨⟨0, 95⟩, ⟨⟨100, 10⟩, ⟨0, 0⟩⟩⟩] 0).controller.vertical_velocity = 0) :=
  ⟨by
    norm_num [closest_floor_or_ceiling, floorScanStep, playerLeftEdge, playerRightEdge,
      playerTop, playerBottom, obstacleLeftEdge, obstacleRightEdge, obstacleTop,
      obstacleBottom],
    C1_grounded_implies_zero_velocity (1/60) ⟨⟨10, 10⟩, ⟨0, 0⟩⟩ ⟨0, false, 0⟩ ⟨0, 105⟩
      [⟨⟨0, 95⟩, ⟨⟨100, 10⟩, ⟨0, 0⟩⟩⟩] 0 100
      (by
        norm_num [closest_floor_or_ceiling, floorScanStep, playerLeftEdge, playerRightEdge,
          playerTop, playerBottom, obstacleLeftEdge, obstacleRightEdge, obstacleTop,
          obstacleBottom])
      (fun _ => rfl)⟩

/-! Claim C2. -/

/-- C2 counterexample: an actor moving right over a gap onto a platform
that only its post-horizontal footprint overlaps. Selecting candidates
with post-horizontal edges (as the claim states) would land the actor on
the platform at `y = 155`; the code selects with the start-of-tick edges,
finds nothing, and free-falls to `y = 100`. -/
theorem C2_counterexample :
    (apply_movement (1/10) false ⟨⟨10, 10⟩, ⟨0, 0⟩⟩ ⟨600, true, -1000⟩ ⟨0, 200⟩
        [⟨⟨60, 145⟩, ⟨⟨20, 10⟩, ⟨0, 0⟩⟩⟩] 0).translation.y = 100 ∧
      (apply_movement_post_edges (1/10) false ⟨⟨10, 10⟩, ⟨0, 0⟩⟩ ⟨600, true, -1000⟩ ⟨0, 200⟩
        [⟨⟨60, 145⟩, ⟨⟨20, 10⟩, ⟨0, 0⟩⟩⟩] 0).translation.y = 155 := by
  constructor
  · norm_num [apply_movement, apply_movement_body, horizontalResolve,
      left_of_closest_wall, closest_floor_or_ceiling, wallScanStep, floorScanStep,
      ceilingScanStep, playerLeftEdge, playerRightEdge, playerTop, playerBottom,
      obstacleLeftEdge, obstacleRightEdge, obstacleTop, obstacleBottom, EPSILON, GRAVITY]
  · norm_num [apply_movement_post_edges, horizontalResolve,
      left_of_closest_wall, closest_floor_or_ceiling, wallScanStep, floorScanStep,
      ceilingScanStep, playerLeftEdge, playerRightEdge, playerTop, playerBottom,
      obstacleLeftEdge, obstacleRightEdge, obstacleTop, obstacleBottom, EPSILON, GRAVITY]

/-- C2 (amended): the vertical pass selects floor/ceiling candidates from
the actor's start-of-tick edges, not the post-horizontal ones. As a
consequence the vertical outcome of a tick (airborne flag, vertical
velocity, and y position) is completely independent of the horizontal
speed, here shown by replacing the speed with an arbitrary value. -/
theorem C2_vertical_pass_start_edges
    (dt : ℚ) (paused : Bool) (player : Player) (ctl : MovementController)
    (tr : Vec2) (obs : List Obstacle) (td : ℚ) (s2 : ℚ) :
    (apply_movement dt paused player ctl tr obs td).controller.jumping =
        (apply_movement dt paused player ⟨s2, ctl.jumping, ctl.vertical_velocity⟩
          tr obs td).controller.jumping ∧
      (apply_movement dt paused player ctl tr obs td).controller.vertical_velocity =
        (apply_movement dt paused player ⟨s2, ctl.jumping, ctl.vertical_velocity⟩
          tr obs td).controller.vertical_velocity ∧
      (apply_movement dt paused player ctl tr obs td).translation.y =
        (apply_movement dt paused player ⟨s2, ctl.jumping, ctl.vertical_velocity⟩
          tr obs td).translation.y := by
  cases paused with
  | true => exact ⟨rfl, rfl, rfl⟩
  | false =>
    simp only [apply_movement_false, apply_movement_body]
    cases hfc : closest_floor_or_ceiling ctl.vertical_velocity (playerLeftEdge player tr)
        (playerRightEdge player tr) (playerBottom player tr) (playerTop player tr) obs with
    | none =>
      simp [hfc]
    | some c =>
      simp only [hfc]
      split_ifs <;> simp

/-! Claim C4. -/

/-- C4 counterexample: in the spec's concrete scenario (actor at
`(0, 200)` over a floor with top edge `y = 100`, at rest, one tick with
`dt = 1/60`), `position.y` does not decrease at all: the position update
uses the old (zero) velocity and only afterwards integrates gravity, so
`y` stays exactly `200` instead of dropping by about `0.639`. -/
theorem C4_counterexample :
    (apply_movement (1/60) false ⟨⟨10, 10⟩, ⟨0, 0⟩⟩ ⟨0, false, 0⟩ ⟨0, 200⟩
        [⟨⟨0, 95⟩, ⟨⟨100, 10⟩, ⟨0, 0⟩⟩⟩] 0).translation.y = 200 := by
  norm_num [apply_movement, apply_movement_body, horizontalResolve,
    left_of_closest_wall, closest_floor_or_ceiling, wallScanStep, floorScanStep,
    ceilingScanStep, playerLeftEdge, playerRightEdge, playerTop, playerBottom,
    obstacleLeftEdge, obstacleRightEdge, obstacleTop, obstacleBottom, EPSILON, GRAVITY]

/-- C4 (amended): in the spec's concrete scenario the tick leaves
`vertical_velocity = -2300/60 = -115/3` and the airborne flag set, but
`position.y` is unchanged at `200`; the drop by `38.33/60` only happens
on the next tick, because the position update uses the velocity from
before the gravity integration. -/
theorem C4_first_tick_from_rest :
    (apply_movement (1/60) false ⟨⟨10, 10⟩, ⟨0, 0⟩⟩ ⟨0, false, 0⟩ ⟨0, 200⟩
        [⟨⟨0, 95⟩, ⟨⟨100, 10⟩, ⟨0, 0⟩⟩⟩] 0).controller.vertical_velocity = -115/3 ∧
      (apply_movement (1/60) false ⟨⟨10, 10⟩, ⟨0, 0⟩⟩ ⟨0, false, 0⟩ ⟨0, 200⟩
        [⟨⟨0, 95⟩, ⟨⟨100, 10⟩, ⟨0, 0⟩⟩⟩] 0).controller.jumping = true ∧
      (apply_movement (1/60) false ⟨⟨10, 10⟩, ⟨0, 0⟩⟩ ⟨0, false, 0⟩ ⟨0, 200⟩
        [⟨⟨0, 95⟩, ⟨⟨100, 10⟩, ⟨0, 0⟩⟩⟩] 0).translation.y = 200 := by
  norm_num [apply_movement, apply_movement_body, horizontalResolve,
    left_of_closest_wall, closest_floor_or_ceiling, wallScanStep, floorScanStep,
    ceilingScanStep, playerLeftEdge, playerRightEdge, playerTop, playerBottom,
    obstacleLeftEdge, obstacleRightEdge, obstacleTop, obstacleBottom, EPSILON, GRAVITY]

/-! Claim C5. -/

/-- C5 counterexample: an actor whose right edge exactly touches a wall
(distance `0 ≤ EPSILON`) with `horizontal_speed = -10` does not move at
all during the tick, although the claim demands
`position.x` to change by `horizontal_speed * dt = -1/6`: the touching
guard blocks movement in both directions. -/
theorem C5_counterexample :
    (apply_movement (1/60) false ⟨⟨10, 10⟩, ⟨0, 0⟩⟩ ⟨-10, false, 0⟩ ⟨0, 0⟩
        [⟨⟨10, 0⟩, ⟨⟨10, 10⟩, ⟨0, 0⟩⟩⟩] 0).translation.x ≠ 0 + (-10) * (1/60) := by
  norm_num [apply_movement, apply_movement_body, horizontalResolve,
    left_of_closest_wall, closest_floor_or_ceiling, wallScanStep, floorScanStep,
    ceilingScanStep, playerLeftEdge, playerRightEdge, playerTop, playerBottom,
    obstacleLeftEdge, obstacleRightEdge, obstacleTop, obstacleBottom, EPSILON, GRAVITY]

/-- C5 (amended): with `horizontal_speed < 0` and a nonnegative tick
size, the horizontal pass moves the actor by exactly
`horizontal_speed * dt` — except when the closest wall to the right is
already within `EPSILON` of the actor's right edge, in which case x is
left unchanged. -/
theorem C5_leftward_movement
    (dt : ℚ) (player : Player) (ctl : MovementController) (tr : Vec2)
    (obs : List Obstacle) (td : ℚ) (hdt : 0 ≤ dt) (hs : ctl.speed < 0) :
    (apply_movement dt false player ctl tr obs td).translation.x =
        tr.x + ctl.speed * dt ∨
      ((apply_movement dt false player ctl tr obs td).translation.x = tr.x ∧
        ∃ l, left_of_closest_wall (playerBottom player tr) (playerTop player tr)
            (playerRightEdge player tr) obs = some l ∧
          l - playerRightEdge player tr ≤ EPSILON) := by
  rw [apply_movement_false, apply_movement_body_x]
  unfold horizontalResolve
  split
  · rename_i l hw
    have hpr := left_of_closest_wall_lb _ _ _ _ _ hw
    split_ifs with hd
    · left
      apply min_eq_left
      have hsdt : ctl.speed * dt ≤ 0 := mul_nonpos_of_nonpos_of_nonneg hs.le hdt
      unfold playerRightEdge at hpr
      linarith
    · right
      exact ⟨rfl, l, hw, by linarith⟩
  · left; rfl

/-- C5 witness: with no obstacles, a leftward-moving actor moves by
exactly `speed * dt`. -/
theorem C5_witness :
    0 ≤ (1/60 : ℚ) ∧ (-10 : ℚ) < 0 ∧
      ((apply_movement (1/60) false ⟨⟨10, 10⟩, ⟨0, 0⟩⟩ ⟨-10, false, 0⟩ ⟨0, 0⟩ [] 0).translation.x
            = 0 + (-10) * (1/60) ∨
        ((apply_movement (1/60) false ⟨⟨10, 10⟩, ⟨0, 0⟩⟩ ⟨-10, false, 0⟩ ⟨0, 0⟩ [] 0).translation.x
              = 0 ∧
          ∃ l, left_of_closest_wall (playerBottom ⟨⟨10, 10⟩, ⟨0, 0⟩⟩ ⟨0, 0⟩)
              (playerTop ⟨⟨10, 10⟩, ⟨0, 0⟩⟩ ⟨0, 0⟩)
              (playerRightEdge ⟨⟨10, 10⟩, ⟨0, 0⟩⟩ ⟨0, 0⟩) [] = some l ∧
            l - playerRightEdge ⟨⟨10, 10⟩, ⟨0, 0⟩⟩ ⟨0, 0⟩ ≤ EPSILON)) :=
  ⟨by norm_num, by norm_num,
    C5_leftward_movement (1/60) ⟨⟨10, 10⟩, ⟨0, 0⟩⟩ ⟨-10, false, 0⟩ ⟨0, 0⟩ [] 0
      (by norm_num) (by norm_num)⟩

/-! Claim C10. -/

/-- C10 (confirmed): when the closest blocking wall's left edge is within
`EPSILON` of the actor's right edge at the start of the tick, the
horizontal pass leaves x unchanged, whatever the horizontal speed is. -/
theorem C10_touching_wall_blocks
    (dt : ℚ) (player : Player) (ctl : MovementController) (tr : Vec2)
    (obs : List Obstacle) (td : ℚ) (l : ℚ)
    (hw : left_of_closest_wall (playerBottom player tr) (playerTop player tr)
      (playerRightEdge player tr) obs = some l)
    (hle : l - playerRightEdge player tr ≤ EPSILON) :
    (apply_movement dt false player ctl tr obs td).translation.x = tr.x := by
  rw [apply_movement_false, apply_movement_body_x]
  unfold horizontalResolve
  split
  · rename_i l2 hw2
    rw [hw2] at hw
    injection hw with h
    subst h
    exact if_neg (by linarith)
  · rename_i hw2
    rw [hw2] at hw
    cases hw

/-- C10 witness: the actor touching a wall at distance zero does not
move, even at positive speed. -/
theorem C10_witness :
    (left_of_closest_wall (playerBottom ⟨⟨10, 10⟩, ⟨0, 0⟩⟩ ⟨0, 0⟩)
        (playerTop ⟨⟨10, 10⟩, ⟨0, 0⟩⟩ ⟨0, 0⟩)
        (playerRightEdge ⟨⟨10, 10⟩, ⟨0, 0⟩⟩ ⟨0, 0⟩)
        [⟨⟨10, 0⟩, ⟨⟨10, 10⟩, ⟨0, 0⟩⟩⟩] = some 5) ∧
      (5 : ℚ) - playerRightEdge ⟨⟨10, 10⟩, ⟨0, 0⟩⟩ ⟨0, 0⟩ ≤ EPSILON ∧
      (apply_movement (1/60) false ⟨⟨10, 10⟩, ⟨0, 0⟩⟩ ⟨600, false, 0⟩ ⟨0, 0⟩
        [⟨⟨10, 0⟩, ⟨⟨10, 10⟩, ⟨0, 0⟩⟩⟩] 0).translation.x = 0 :=
  ⟨by
    norm_num [left_of_closest_wall, wallScanStep, playerLeftEdge, playerRightEdge,
      playerTop, playerBottom, obstacleLeftEdge, obstacleRightEdge, obstacleTop,
      obstacleBottom],
    by norm_num [playerRightEdge, EPSILON],
    C10_touching_wall_blocks (1/60) ⟨⟨10, 10⟩, ⟨0, 0⟩⟩ ⟨600, false, 0⟩ ⟨0, 0⟩
      [⟨⟨10, 0⟩, ⟨⟨10, 10⟩, ⟨0, 0⟩⟩⟩] 0 5
      (by
        norm_num [left_of_closest_wall, wallScanStep, playerLeftEdge, playerRightEdge,
          playerTop, playerBottom, obstacleLeftEdge, obstacleRightEdge, obstacleTop,
          obstacleBottom])
      (by norm_num [playerRightEdge, EPSILON])⟩

/-! Claim C7. -/

/-- C7 (confirmed): when a hazard's left edge equals the actor's right
edge within `EPSILON` and the rectangles vertically overlap, the hazard
pass raises at least one death signal, and the side-contact test for that
hazard contributes exactly one signal: with that hazard alone and no
simultaneous top/bottom contact, exactly one death fires that tick. -/
theorem C7_side_contact_death
    (player : Player) (tr : Vec2) (s : Obstacle) (spikes : List Obstacle)
    (hs : s ∈ spikes) (hc : sideContact player tr s) :
    1 ≤ check_spike_collisions false false player tr spikes ∧
      (spikes = [s] → ¬topBottomContact player tr s →
        check_spike_collisions false false player tr spikes = 1) := by
  have hgate : check_spike_collisions false false player tr spikes =
      (spikes.map (spikeEvents player tr)).sum := rfl
  constructor
  · rw [hgate]
    have h1 : 1 ≤ spikeEvents player tr s := by
      unfold spikeEvents
      rw [if_pos hc]
      omega
    exact h1.trans (List.single_le_sum (fun x _ => Nat.zero_le x) _
      (List.mem_map_of_mem _ hs))
  · intro heq htb
    subst heq
    rw [hgate]
    simp [spikeEvents, hc, htb]

/-- C7 witness: a hazard whose left edge sits exactly on the actor's
right edge with vertical overlap produces exactly one death signal. -/
theorem C7_witness :
    sideContact ⟨⟨10, 10⟩, ⟨0, 0⟩⟩ ⟨45, 0⟩ ⟨⟨55, 0⟩, ⟨⟨10, 10⟩, ⟨0, 0⟩⟩⟩ ∧
      1 ≤ check_spike_collisions false false ⟨⟨10, 10⟩, ⟨0, 0⟩⟩ ⟨45, 0⟩
          [⟨⟨55, 0⟩, ⟨⟨10, 10⟩, ⟨0, 0⟩⟩⟩] ∧
      ([(⟨⟨55, 0⟩, ⟨⟨10, 10⟩, ⟨0, 0⟩⟩⟩ : Obstacle)] = [⟨⟨55, 0⟩, ⟨⟨10, 10⟩, ⟨0, 0⟩⟩⟩] →
        ¬topBottomContact ⟨⟨10, 10⟩, ⟨0, 0⟩⟩ ⟨45, 0⟩ ⟨⟨55, 0⟩, ⟨⟨10, 10⟩, ⟨0, 0⟩⟩⟩ →
        check_spike_collisions false false ⟨⟨10, 10⟩, ⟨0, 0⟩⟩ ⟨45, 0⟩
          [⟨⟨55, 0⟩, ⟨⟨10, 10⟩, ⟨0, 0⟩⟩⟩] = 1) :=
  ⟨by
    norm_num [sideContact, playerRightEdge, playerTop, playerBottom,
      obstacleLeftEdge, obstacleTop, obstacleBottom, EPSILON],
    C7_side_contact_death ⟨⟨10, 10⟩, ⟨0, 0⟩⟩ ⟨45, 0⟩ ⟨⟨55, 0⟩, ⟨⟨10, 10⟩, ⟨0, 0⟩⟩⟩
      [⟨⟨55, 0⟩, ⟨⟨10, 10⟩, ⟨0, 0⟩⟩⟩] (by simp)
      (by
        norm_num [sideContact, playerRightEdge, playerTop, playerBottom,
          obstacleLeftEdge, obstacleTop, obstacleBottom, EPSILON])⟩

/-! Claim C8. -/

/-- C8 (confirmed): a resolver tick with `dt = 0` changes neither the
x nor the y position, nor the horizontal speed, nor the vertical
velocity, for every actor state and obstacle set. -/
theorem C8_zero_dt_no_change
    (player : Player) (ctl : MovementController) (tr : Vec2)
    (obs : List Obstacle) (td : ℚ) :
    (apply_movement 0 false player ctl tr obs td).controller.speed = ctl.speed ∧
      (apply_movement 0 false player ctl tr obs td).controller.vertical_velocity =
        ctl.vertical_velocity ∧
      (apply_movement 0 false player ctl tr obs td).translation.x = tr.x ∧
      (apply_movement 0 false player ctl tr obs td).translation.y = tr.y := by
  have hx : (apply_movement 0 false player ctl tr obs td).translation.x = tr.x := by
    rw [apply_movement_false, apply_movement_body_x]
    unfold horizontalResolve
    split
    · rename_i l hw
      have hpr := left_of_closest_wall_lb _ _ _ _ _ hw
      split_ifs with hd
      · rw [mul_zero, add_zero]
        apply min_eq_left
        unfold playerRightEdge at hpr
        linarith
      · rfl
    · rw [mul_zero, add_zero]
  have hsp : (apply_movement 0 false player ctl tr obs td).controller.speed = ctl.speed := by
    rw [apply_movement_false]
    exact apply_movement_body_speed 0 player ctl tr obs td
  have hrest : (apply_movement 0 false player ctl tr obs td).controller.vertical_velocity =
      ctl.vertical_velocity ∧
      (apply_movement 0 false player ctl tr obs td).translation.y = tr.y := by
    rw [apply_movement_false]
    simp only [apply_movement_body]
    cases hfc : closest_floor_or_ceiling ctl.vertical_velocity (playerLeftEdge player tr)
        (playerRightEdge player tr) (playerBottom player tr) (playerTop player tr) obs with
    | none => simp [hfc]
    | some c =>
      simp only [hfc]
      have hyfall : ctl.vertical_velocity ≤ 0 → playerBottom player tr - c > EPSILON →
          max (tr.y + ctl.vertical_velocity * 0)
            (c - player.collider_offset.y + player.collider.y / 2) = tr.y := by
        intro _ h2
        rw [mul_zero, add_zero]
        apply max_eq_left
        unfold playerBottom at h2
        have := EPSILON_pos
        linarith
      have hyrise : c - playerTop player tr > EPSILON →
          min (tr.y + ctl.vertical_velocity * 0)
            (c - player.collider_offset.y - player.collider.y / 2) = tr.y := by
        intro h4
        rw [mul_zero, add_zero]
        apply min_eq_left
        unfold playerTop at h4
        have := EPSILON_pos
        linarith
      split_ifs with h1 h2 h3 h4 h5
      · refine ⟨by simp, ?_⟩
        unfold playerBottom at h2
        have heps := EPSILON_pos
        simp
        linarith
      · exfalso
        apply h3
        rw [hyfall h1 h2]
        unfold playerBottom at h2
        have heps := EPSILON_pos
        rw [abs_of_pos] <;> linarith
      · exact ⟨rfl, rfl⟩
      · refine ⟨by simp, ?_⟩
        unfold playerTop at h4
        have heps := EPSILON_pos
        simp
        linarith
      · exfalso
        apply h5
        rw [hyrise h4]
        unfold playerTop at h4
        have heps := EPSILON_pos
        rw [abs_of_pos] <;> linarith
      · exact ⟨by simp, rfl⟩
  exact ⟨hsp, hrest.1, hx, hrest.2⟩

/-! Claim C9. -/

/-- C9 counterexample: `wrap_within_level` has no pause gate, so a
paused tick is not a complete no-op: with the actor beyond the level's
right boundary, a paused tick still teleports it to the left edge
(`x = -676 ≠ 2000`) and raises the advance-level spawn. -/
theorem C9_counterexample :
    (simTick (1/60) true false ⟨⟨10, 10⟩, ⟨0, 0⟩⟩ ⟨5, false, 0⟩ ⟨2000, 0⟩ [] [] 0 0).translation.x
        ≠ 2000 ∧
      (simTick (1/60) true false ⟨⟨10, 10⟩, ⟨0, 0⟩⟩ ⟨5, false, 0⟩ ⟨2000, 0⟩ [] [] 0 0).advanced
        = true := by
  constructor <;>
    norm_num [simTick, apply_movement, check_spike_collisions, wrap_within_level,
      PLAYER_IMAGE_SIZE, LEVEL_WIDTH]

/-- C9 (amended): while paused, the movement and hazard passes are
no-ops (no position, speed, velocity, airborne or distance change, and
no death signal), and the whole tick is a no-op provided the actor's
left image edge has not passed the level's right boundary — the
level-wrap check alone is not gated by pause. -/
theorem C9_paused_tick_noop
    (dt : ℚ) (dead : Bool) (player : Player) (ctl : MovementController)
    (tr : Vec2) (obs spikes : List Obstacle) (td : ℚ) (lvl : ℕ)
    (hx : tr.x - PLAYER_IMAGE_SIZE / 2 ≤ LEVEL_WIDTH / 2) :
    (simTick dt true dead player ctl tr obs spikes td lvl).controller = ctl ∧
      (simTick dt true dead player ctl tr obs spikes td lvl).translation = tr ∧
      (simTick dt true dead player ctl tr obs spikes td lvl).totalDistance = td ∧
      (simTick dt true dead player ctl tr obs spikes td lvl).deaths = 0 ∧
      (simTick dt true dead player ctl tr obs spikes td lvl).level = lvl ∧
      (simTick dt true dead player ctl tr obs spikes td lvl).advanced = false := by
  have hw : wrap_within_level tr lvl = (tr, lvl, false) := by
    unfold wrap_within_level
    rw [if_neg (by linarith)]
  simp [simTick, apply_movement_true, hw, check_spike_collisions]

/-- C9 witness: a paused tick inside the level changes nothing. -/
theorem C9_witness :
    (0 : ℚ) - PLAYER_IMAGE_SIZE / 2 ≤ LEVEL_WIDTH / 2 ∧
      ((simTick (1/60) true false ⟨⟨10, 10⟩, ⟨0, 0⟩⟩ ⟨5, true, 3⟩ ⟨0, 0⟩ [] [] 7 2).controller
          = ⟨5, true, 3⟩ ∧
        (simTick (1/60) true false ⟨⟨10, 10⟩, ⟨0, 0⟩⟩ ⟨5, true, 3⟩ ⟨0, 0⟩ [] [] 7 2).translation
          = ⟨0, 0⟩ ∧
        (simTick (1/60) true false ⟨⟨10, 10⟩, ⟨0, 0⟩⟩ ⟨5, true, 3⟩ ⟨0, 0⟩ [] [] 7 2).totalDistance
          = 7 ∧
        (simTick (1/60) true false ⟨⟨10, 10⟩, ⟨0, 0⟩⟩ ⟨5, true, 3⟩ ⟨0, 0⟩ [] [] 7 2).deaths
          = 0 ∧
        (simTick (1/60) true false ⟨⟨10, 10⟩, ⟨0, 0⟩⟩ ⟨5, true, 3⟩ ⟨0, 0⟩ [] [] 7 2).level
          = 2 ∧
        (simTick (1/60) true false ⟨⟨10, 10⟩, ⟨0, 0⟩⟩ ⟨5, true, 3⟩ ⟨0, 0⟩ [] [] 7 2).advanced
          = false) :=
  ⟨by norm_num [PLAYER_IMAGE_SIZE, LEVEL_WIDTH],
    C9_paused_tick_noop (1/60) false ⟨⟨10, 10⟩, ⟨0, 0⟩⟩ ⟨5, true, 3⟩ ⟨0, 0⟩ [] [] 7 2
      (by norm_num [PLAYER_IMAGE_SIZE, LEVEL_WIDTH])⟩

/-! Claim C3. -/

/-- A resolver tick never changes the controller speed. -/
lemma stepTick_speed (player : Player) (obs : List Obstacle) (dt : ℚ) (s : PState) :
    (stepTick player obs dt s).ctl.speed = s.ctl.speed := by
  unfold stepTick
  rw [apply_movement_false]
  exact apply_movement_body_speed dt player s.ctl s.tr obs 0

/-- Single-tick no-tunneling: while the wall vertically overlaps the
actor and the actor starts left of it, one resolver tick keeps the
actor's right edge at or left of the wall's left edge. -/
lemma stepTick_right_le (player : Player) (obs : List Obstacle) (w : Obstacle)
    (hw : w ∈ obs) (dt : ℚ) (s : PState)
    (hov : vertOverlap player s.tr w)
    (h0 : playerRightEdge player s.tr ≤ obstacleLeftEdge w) :
    playerRightEdge player (stepTick player obs dt s).tr ≤ obstacleLeftEdge w := by
  have hx : (stepTick player obs dt s).tr.x = horizontalResolve dt player s.ctl s.tr obs := by
    unfold stepTick
    rw [apply_movement_false]
    exact apply_movement_body_x dt player s.ctl s.tr obs 0
  obtain ⟨l, hl, hle⟩ := wallScan_foldl_candidate (playerBottom player s.tr)
    (playerTop player s.tr) (playerRightEdge player s.tr) obs none w hw hov h0
  have hlw : left_of_closest_wall (playerBottom player s.tr) (playerTop player s.tr)
      (playerRightEdge player s.tr) obs = some l := hl
  unfold playerRightEdge at h0 ⊢
  rw [hx]
  unfold horizontalResolve
  split
  · rename_i l2 hl2
    rw [hlw] at hl2
    injection hl2 with h
    subst h
    split_ifs with hd
    · have hmin := min_le_right (s.tr.x + s.ctl.speed * dt)
        (l - player.collider_offset.x - player.collider.x / 2)
      linarith
    · exact h0
  · rename_i hl2
    rw [hlw] at hl2
    cases hl2

/-- C3 (confirmed): across any sequence of resolver ticks during which a
wall in the obstacle set keeps vertically overlapping the actor, an
actor that starts with its right edge at or left of the wall's left edge
never gets its right edge past that wall's left edge; the per-tick
thickness bound `speed * dt < thickness` of the claim is recorded as a
hypothesis (the clamp needs no more than the overlap and the starting
side). -/
theorem C3_no_tunneling
    (player : Player) (obs : List Obstacle) (w : Obstacle) (hw : w ∈ obs)
    (s : PState) (dts : List ℚ)
    (hthick : ∀ dt ∈ dts, s.ctl.speed * dt < w.collider.bounds.x)
    (h0 : playerRightEdge player s.tr ≤ obstacleLeftEdge w)
    (hov : ∀ pre dt post, dts = pre ++ dt :: post →
      vertOverlap player (runTicks player obs s pre).tr w) :
    playerRightEdge player (runTicks player obs s dts).tr ≤ obstacleLeftEdge w := by
  induction dts generalizing s with
  | nil => simpa [runTicks] using h0
  | cons dt rest ih =>
    have hov0 : vertOverlap player s.tr w := by
      simpa [runTicks] using hov [] dt rest rfl
    have hstep := stepTick_right_le player obs w hw dt s hov0 h0
    have hrun : runTicks player obs s (dt :: rest) =
        runTicks player obs (stepTick player obs dt s) rest := by
      simp [runTicks]
    rw [hrun]
    refine ih (stepTick player obs dt s) ?_ hstep ?_
    · intro dt2 hdt2
      rw [stepTick_speed]
      exact hthick dt2 (List.mem_cons_of_mem _ hdt2)
    · intro pre dt2 post heq
      have h := hov (dt :: pre) dt2 post (by rw [heq]; rfl)
      simpa [runTicks] using h

/-- C3 witness: a single tick against a touching, overlapping wall keeps
the actor's right edge at the wall. -/
theorem C3_witness :
    (∀ dt ∈ [(1/60 : ℚ)],
        (⟨⟨400, false, 0⟩, ⟨0, 0⟩⟩ : PState).ctl.speed * dt
          < (⟨⟨10, 0⟩, ⟨⟨10, 10⟩, ⟨0, 0⟩⟩⟩ : Obstacle).collider.bounds.x) ∧
      playerRightEdge ⟨⟨10, 10⟩, ⟨0, 0⟩⟩ (⟨⟨400, false, 0⟩, ⟨0, 0⟩⟩ : PState).tr
        ≤ obstacleLeftEdge ⟨⟨10, 0⟩, ⟨⟨10, 10⟩, ⟨0, 0⟩⟩⟩ ∧
      playerRightEdge ⟨⟨10, 10⟩, ⟨0, 0⟩⟩
          (runTicks ⟨⟨10, 10⟩, ⟨0, 0⟩⟩ [⟨⟨10, 0⟩, ⟨⟨10, 10⟩, ⟨0, 0⟩⟩⟩]
            ⟨⟨400, false, 0⟩, ⟨0, 0⟩⟩ [1/60]).tr
        ≤ obstacleLeftEdge ⟨⟨10, 0⟩, ⟨⟨10, 10⟩, ⟨0, 0⟩⟩⟩ :=
  ⟨by
    intro dt hdt
    simp only [List.mem_singleton] at hdt
    subst hdt
    norm_num,
  by norm_num [playerRightEdge, obstacleLeftEdge],
  C3_no_tunneling ⟨⟨10, 10⟩, ⟨0, 0⟩⟩ [⟨⟨10, 0⟩, ⟨⟨10, 10⟩, ⟨0, 0⟩⟩⟩]
    ⟨⟨10, 0⟩, ⟨⟨10, 10⟩, ⟨0, 0⟩⟩⟩ (by simp) ⟨⟨400, false, 0⟩, ⟨0, 0⟩⟩ [1/60]
    (by
      intro dt hdt
      simp only [List.mem_singleton] at hdt
      subst hdt
      norm_num)
    (by norm_num [playerRightEdge, obstacleLeftEdge])
    (by
      intro pre dt post heq
      cases pre with
      | nil =>
        norm_num [runTicks, vertOverlap, playerBottom, playerTop,
          obstacleTop, obstacleBottom]
      | cons a l =>
        exact absurd heq (by simp))⟩

/-! Claim C6. -/

/-- Single-tick resting: an actor resting on a floor it horizontally
overlaps comes out of one resolver tick with the same controller and the
same y position (the touching guard skips the whole falling branch). -/
lemma stepTick_resting (player : Player) (obs : List Obstacle) (f : Obstacle)
    (hf : f ∈ obs) (dt : ℚ) (s : PState)
    (hres : restingOn player s f) (hov : horizOverlap player s.tr f) :
    (stepTick player obs dt s).ctl = s.ctl ∧
      (stepTick player obs dt s).tr.y = s.tr.y := by
  obtain ⟨hd0, hdε, hvv, hj⟩ := hres
  have hov2 : ¬(playerLeftEdge player s.tr > obstacleRightEdge f ∨
      playerRightEdge player s.tr < obstacleLeftEdge f) := hov
  obtain ⟨c, hc, hcge⟩ := floorScan_foldl_candidate (playerLeftEdge player s.tr)
    (playerRightEdge player s.tr) (playerBottom player s.tr) obs none f hf hov2
    (by linarith)
  have hfc : closest_floor_or_ceiling s.ctl.vertical_velocity
      (playerLeftEdge player s.tr) (playerRightEdge player s.tr)
      (playerBottom player s.tr) (playerTop player s.tr) obs = some c := by
    unfold closest_floor_or_ceiling
    rw [if_pos (by rw [hvv])]
    exact hc
  have h1 : s.ctl.vertical_velocity ≤ 0 := by rw [hvv]
  have h2 : ¬(playerBottom player s.tr - c > EPSILON) := by
    push_neg
    linarith
  unfold stepTick
  rw [apply_movement_false]
  simp only [apply_movement_body, hfc]
  rw [if_pos h1, if_neg h2]
  exact ⟨rfl, rfl⟩

/-- C6 (confirmed): once the actor rests on a floor's top edge within
`EPSILON` with zero vertical velocity and the grounded flag, any
sequence of resolver ticks (no jump events occur inside `runTicks`)
during which the actor keeps horizontally overlapping that floor leaves
the vertical velocity zero, the airborne flag false, and y unchanged. -/
theorem C6_landing_idempotent
    (player : Player) (obs : List Obstacle) (f : Obstacle) (hf : f ∈ obs)
    (s : PState) (dts : List ℚ)
    (hres : restingOn player s f)
    (hov : ∀ pre dt post, dts = pre ++ dt :: post →
      horizOverlap player (runTicks player obs s pre).tr f) :
    (runTicks player obs s dts).ctl.vertical_velocity = 0 ∧
      (runTicks player obs s dts).ctl.jumping = false ∧
      (runTicks player obs s dts).tr.y = s.tr.y := by
  induction dts generalizing s with
  | nil =>
    refine ⟨?_, ?_, ?_⟩ <;> simp [runTicks, hres.2.2.1, hres.2.2.2]
  | cons dt rest ih =>
    have hov0 : horizOverlap player s.tr f := by
      simpa [runTicks] using hov [] dt rest rfl
    have hstep := stepTick_resting player obs f hf dt s hres hov0
    have hres2 : restingOn player (stepTick player obs dt s) f := by
      unfold restingOn
      rw [hstep.1]
      have hbot : playerBottom player (stepTick player obs dt s).tr =
          playerBottom player s.tr := by
        unfold playerBottom
        rw [hstep.2]
      rw [hbot]
      exact ⟨hres.1, hres.2.1, hres.2.2.1, hres.2.2.2⟩
    have hrun : runTicks player obs s (dt :: rest) =
        runTicks player obs (stepTick player obs dt s) rest := by
      simp [runTicks]
    rw [hrun]
    have hov2 : ∀ pre dt2 post, rest = pre ++ dt2 :: post →
        horizOverlap player (runTicks player obs (stepTick player obs dt s) pre).tr f := by
      intro pre dt2 post heq
      have h := hov (dt :: pre) dt2 post (by rw [heq]; rfl)
      simpa [runTicks] using h
    obtain ⟨h1, h2, h3⟩ := ih (stepTick player obs dt s) hres2 hov2
    exact ⟨h1, h2, by rw [h3, hstep.2]⟩

/-- C6 witness: an actor resting exactly on a wide floor stays at rest
through a tick. -/
theorem C6_witness :
    restingOn ⟨⟨10, 10⟩, ⟨0, 0⟩⟩ ⟨⟨0, false, 0⟩, ⟨0, 105⟩⟩ ⟨⟨0, 95⟩, ⟨⟨100, 10⟩, ⟨0, 0⟩⟩⟩ ∧
      (runTicks ⟨⟨10, 10⟩, ⟨0, 0⟩⟩ [⟨⟨0, 95⟩, ⟨⟨100, 10⟩, ⟨0, 0⟩⟩⟩]
          ⟨⟨0, false, 0⟩, ⟨0, 105⟩⟩ [1/60]).ctl.vertical_velocity = 0 ∧
      (runTicks ⟨⟨10, 10⟩, ⟨0, 0⟩⟩ [⟨⟨0, 95⟩, ⟨⟨100, 10⟩, ⟨0, 0⟩⟩⟩]
          ⟨⟨0, false, 0⟩, ⟨0, 105⟩⟩ [1/60]).ctl.jumping = false ∧
      (runTicks ⟨⟨10, 10⟩, ⟨0, 0⟩⟩ [⟨⟨0, 95⟩, ⟨⟨100, 10⟩, ⟨0, 0⟩⟩⟩]
          ⟨⟨0, false, 0⟩, ⟨0, 105⟩⟩ [1/60]).tr.y
        = (⟨⟨0, false, 0⟩, ⟨0, 105⟩⟩ : PState).tr.y :=
  ⟨by
    norm_num [restingOn, playerBottom, obstacleTop, EPSILON],
  C6_landing_idempotent ⟨⟨10, 10⟩, ⟨0, 0⟩⟩ [⟨⟨0, 95⟩, ⟨⟨100, 10⟩, ⟨0, 0⟩⟩⟩]
    ⟨⟨0, 95⟩, ⟨⟨100, 10⟩, ⟨0, 0⟩⟩⟩ (by simp) ⟨⟨0, false, 0⟩, ⟨0, 105⟩⟩ [1/60]
    (by norm_num [restingOn, playerBottom, obstacleTop, EPSILON])
    (by
      intro pre dt post heq
      cases pre with
      | nil =>
        norm_num [runTicks, horizOverlap, playerLeftEdge, playerRightEdge,
          obstacleLeftEdge, obstacleRightEdge]
      | cons a l =>
        exact absurd heq (by simp))⟩

end Movement
